import Mathlib

/-!
Shallow embedding of the JSM → BigQuery incremental synchronization pipeline
(`jsm-puller`) and its HTTP trigger (`trigger-refresh`).

The embedding translates the TypeScript sources:
  * the ISO-8601 validators (`isIso8601Z`, `validateISO8601` in both the
    puller and the trigger),
  * the field normalizers (`asDisplay`, `cascadingToString`,
    `multiSelectToArray`, `toBQDate`, `toRawJson`) and the per-issue row
    construction inside `fetchIssuesSince`,
  * the pagination loop of `fetchIssuesSince`,
  * `insertToStaging`, `runMerge` and the merge-gating logic of `main`.

JavaScript `Date` parsing is modelled by `jsDateParse`, covering the
ECMAScript Date Time String Format (`YYYY-MM-DD` optionally followed by
`T HH:mm[:ss[.fff]]` and a `Z` or `±HH:mm` offset) with V8-style calendar
validation; strings outside that format are treated as unparseable, and a
missing offset is interpreted as UTC (the deployment runs in UTC).
-/

namespace JSM

/- ------------------------------------------------------------------ -/
/- Character-level matching helpers (used to embed the regexes).       -/
/- ------------------------------------------------------------------ -/

/-- Consume exactly `n` decimal digits, returning the rest of the input. -/
def expectDigits : Nat → List Char → Option (List Char)
  | 0, s => some s
  | _ + 1, [] => none
  | n + 1, c :: s => if c.isDigit then expectDigits n s else none

/-- Consume one expected literal character. -/
def expectChar (c : Char) : List Char → Option (List Char)
  | [] => none
  | d :: s => if d = c then some s else none

/-- Consume the common prefix `DDDD-DD-DDTDD:DD:DD` shared by both
ISO-8601 validator regexes. -/
def dateTimePrefix (s : List Char) : Option (List Char) :=
  (expectDigits 4 s).bind fun s1 =>
  (expectChar '-' s1).bind fun s2 =>
  (expectDigits 2 s2).bind fun s3 =>
  (expectChar '-' s3).bind fun s4 =>
  (expectDigits 2 s4).bind fun s5 =>
  (expectChar 'T' s5).bind fun s6 =>
  (expectDigits 2 s6).bind fun s7 =>
  (expectChar ':' s7).bind fun s8 =>
  (expectDigits 2 s8).bind fun s9 =>
  (expectChar ':' s9).bind fun s10 =>
  expectDigits 2 s10

/-- Match the tail of the validator regexes: an optional fractional-seconds
group followed by a final `Z`.  `maxFrac = none` embeds the puller's
`(?:\.[0-9]+)?Z$` (any positive number of digits); `maxFrac = some k`
embeds `(\.\d{1,k})?Z$`. -/
def fracThenZ (maxFrac : Option Nat) : List Char → Bool
  | [] => false
  | c :: rest =>
      if c = 'Z' then decide (rest = [])
      else if c = '.' then
        let ds := rest.takeWhile (·.isDigit)
        let tail := rest.dropWhile (·.isDigit)
        decide (1 ≤ ds.length) &&
        (match maxFrac with
         | none => true
         | some k => decide (ds.length ≤ k)) &&
        decide (tail = ['Z'])
      else false

/-- The regex `^\d{4}-\d{2}-\d{2}T\d{2}:\d{2}:\d{2}(\.\d{1,3})?Z$` used by
both `validateISO8601` implementations. -/
def iso8601RegexTest (v : String) : Bool :=
  match dateTimePrefix v.data with
  | some rest => fracThenZ (some 3) rest
  | none => false

/- ------------------------------------------------------------------ -/
/- Civil-calendar arithmetic (for the JavaScript Date model).          -/
/- ------------------------------------------------------------------ -/

/-- Gregorian leap-year test. -/
def isLeap (y : Nat) : Bool :=
  (y % 4 = 0 && y % 100 ≠ 0) || y % 400 = 0

/-- Number of days in month `m` (1-based) of year `y`. -/
def daysInMonth (y m : Nat) : Nat :=
  if m = 2 then (if isLeap y then 29 else 28)
  else if m = 4 || m = 6 || m = 9 || m = 11 then 30
  else 31

/-- Days since the Unix epoch of the civil date `y-m-d` (proleptic
Gregorian calendar), standard era-based computation. -/
def daysFromCivil (y m d : Int) : Int :=
  let y1 := if m ≤ 2 then y - 1 else y
  let era := Int.fdiv y1 400
  let yoe := y1 - era * 400
  let mp := if m > 2 then m - 3 else m + 9
  let doy := Int.fdiv (153 * mp + 2) 5 + d - 1
  let doe := yoe * 365 + Int.fdiv yoe 4 - Int.fdiv yoe 100 + doy
  era * 146097 + doe - 719468

/-- Civil date `(year, month, day)` of a count of days since the Unix
epoch; inverse of `daysFromCivil`. -/
def civilFromDays (z0 : Int) : Int × Int × Int :=
  let z := z0 + 719468
  let era := Int.fdiv z 146097
  let doe := z - era * 146097
  let yoe := Int.fdiv (doe - Int.fdiv doe 1460 + Int.fdiv doe 36524 - Int.fdiv doe 146096) 365
  let y := yoe + era * 400
  let doy := doe - (365 * yoe + Int.fdiv yoe 4 - Int.fdiv yoe 100)
  let mp := Int.fdiv (5 * doy + 2) 153
  let d := doy - Int.fdiv (153 * mp + 2) 5 + 1
  let m := if mp < 10 then mp + 3 else mp - 9
  (if m ≤ 2 then y + 1 else y, m, d)

example : daysFromCivil 1970 1 1 = 0 := by decide
example : civilFromDays 0 = (1970, 1, 1) := by decide
example : daysFromCivil 2025 3 5 = 20152 := by decide
example : civilFromDays 20152 = (2025, 3, 5) := by decide
example : civilFromDays (daysFromCivil 2024 2 29) = (2024, 2, 29) := by decide

/- ------------------------------------------------------------------ -/
/- JavaScript Date parsing model.                                      -/
/- ------------------------------------------------------------------ -/

/-- Read exactly `n` digits as a number, returning it with the rest. -/
def parseNDigits (n : Nat) (s : List Char) : Option (Nat × List Char) :=
  let ds := s.take n
  if ds.length = n && ds.all (·.isDigit) then
    some (ds.foldl (fun a c => a * 10 + (c.toNat - 48)) 0, s.drop n)
  else none

/-- Optional fractional-seconds group: `.` followed by one or more digits,
truncated to millisecond precision (as V8 does).  Absence yields 0 ms. -/
def parseFrac : List Char → Option (Nat × List Char)
  | '.' :: rest =>
      let ds := rest.takeWhile (·.isDigit)
      if ds.length = 0 then none
      else some (((ds ++ ['0', '0', '0']).take 3).foldl
                   (fun a c => a * 10 + (c.toNat - 48)) 0,
                 rest.dropWhile (·.isDigit))
  | s => some (0, s)

/-- Trailing timezone designator, in minutes east of UTC.  `Z` and an
absent designator both mean offset 0 (the deployment runs in UTC, so
local time coincides with UTC). -/
def parseOffset : List Char → Option Int
  | [] => some 0
  | ['Z'] => some 0
  | c :: h1 :: h2 :: ':' :: m1 :: m2 :: [] =>
      if (c = '+' || c = '-') && h1.isDigit && h2.isDigit && m1.isDigit && m2.isDigit then
        let h := (h1.toNat - 48) * 10 + (h2.toNat - 48)
        let mi := (m1.toNat - 48) * 10 + (m2.toNat - 48)
        if h ≤ 23 && mi ≤ 59 then
          some ((if c = '+' then 1 else -1) * ((h : Int) * 60 + mi))
        else none
      else none
  | _ => none

/-- Time-of-day and offset part after the `T`. -/
def parseTimePart (s : List Char) : Option (Nat × Nat × Nat × Nat × Int) :=
  (parseNDigits 2 s).bind fun h =>
  (expectChar ':' h.2).bind fun r1 =>
  (parseNDigits 2 r1).bind fun mi =>
  match mi.2 with
  | ':' :: r2 =>
      (parseNDigits 2 r2).bind fun se =>
      (parseFrac se.2).bind fun ms =>
      (parseOffset ms.2).map fun off => (h.1, mi.1, se.1, ms.1, off)
  | r2 =>
      (parseOffset r2).map fun off => (h.1, mi.1, 0, 0, off)

/-- Model of `new Date(s).getTime()` for the ECMAScript Date Time String
Format, with V8-style range validation of each field: returns the epoch
timestamp in milliseconds, or `none` when the string is not a valid date
(`NaN`).  Strings outside the modelled format are unparseable. -/
def jsDateParse (s : String) : Option Int :=
  ((parseNDigits 4 s.data).bind fun y =>
   (expectChar '-' y.2).bind fun r1 =>
   (parseNDigits 2 r1).bind fun mo =>
   (expectChar '-' mo.2).bind fun r2 =>
   (parseNDigits 2 r2).bind fun d =>
   (match d.2 with
    | [] => some (0, 0, 0, 0, (0 : Int))
    | 'T' :: r3 => parseTimePart r3
    | _ => none).map fun t =>
      (y.1, mo.1, d.1, t)).bind fun p =>
  let y := p.1; let mo := p.2.1; let d := p.2.2.1
  let h := p.2.2.2.1; let mi := p.2.2.2.2.1
  let se := p.2.2.2.2.2.1; let ms := p.2.2.2.2.2.2.1
  let off := p.2.2.2.2.2.2.2
  if 1 ≤ mo ∧ mo ≤ 12 ∧ 1 ≤ d ∧ d ≤ daysInMonth y mo ∧
     (h ≤ 23 ∨ (h = 24 ∧ mi = 0 ∧ se = 0 ∧ ms = 0)) ∧ mi ≤ 59 ∧ se ≤ 59 then
    some (daysFromCivil y mo d * 86400000 +
          (h : Int) * 3600000 + (mi : Int) * 60000 + (se : Int) * 1000 + (ms : Int) -
          off * 60000)
  else none

example : jsDateParse "2025-03-05T10:00:00Z" = some 1741168800000 := by decide
example : jsDateParse "2025-03-05" = some 1741132800000 := by decide
example : jsDateParse "not-a-date" = none := by decide
example : jsDateParse "2025-02-30" = none := by decide

/- ------------------------------------------------------------------ -/
/- ISO-8601 validators: puller (two implementations) and trigger.      -/
/- ------------------------------------------------------------------ -/

namespace Puller

/-- Embeds the puller's `isIso8601Z`: a pure regex test,
`^[0-9]{4}-[0-9]{2}-[0-9]{2}T[0-9]{2}:[0-9]{2}:[0-9]{2}(?:\.[0-9]+)?Z$`. -/
def isIso8601Z (value : String) : Bool :=
  match dateTimePrefix value.data with
  | some rest => fracThenZ none rest
  | none => false

/-- Embeds the puller's `validateISO8601`: the 1-to-3-fractional-digit
regex, plus a `new Date` parse-validity check. -/
def validateISO8601 (dateString : String) : Bool :=
  if iso8601RegexTest dateString = false then false
  else (jsDateParse dateString).isSome

end Puller

namespace TriggerRefresh

/-- Embeds the trigger endpoint's `validateISO8601` (textually identical
to the puller's second implementation). -/
def validateISO8601 (dateString : String) : Bool :=
  if iso8601RegexTest dateString = false then false
  else (jsDateParse dateString).isSome

end TriggerRefresh

/- ------------------------------------------------------------------ -/
/- Field normalizers.                                                  -/
/- ------------------------------------------------------------------ -/

/-- JavaScript string truthiness filter: keeps the value only when it is
present and non-empty. -/
def truthy : Option String → Option String
  | some s => if s = "" then none else some s
  | none => none

/-- A Jira user reference: an object with an optional display name. -/
structure JiraUser where
  displayName : Option String
deriving DecidableEq

/-- `asDisplay`: the display name if the user reference is present, else
null (`user ? user.displayName ?? null : null`). -/
def asDisplay (user : Option JiraUser) : Option String :=
  user.bind JiraUser.displayName

/-- The child level of a cascading select. -/
structure CascChild where
  value : Option String
deriving DecidableEq

/-- Runtime shape of a cascading-select field value: absent (or null),
a non-object primitive, or an object with optional `value` and `child`. -/
inductive CascInput where
  | missing
  | primitive
  | obj (value : Option String) (child : Option CascChild)
deriving DecidableEq

/-- Embeds `cascadingToString`: null for absent/non-object input, then
`"<parent> > <child>"` when both truthy, `"<parent>"` when only the
parent is truthy, null otherwise. -/
def cascadingToString : CascInput → Option String
  | .missing => none
  | .primitive => none
  | .obj v c =>
      match truthy v, truthy (c.bind CascChild.value) with
      | some p, some ch => some (p ++ " > " ++ ch)
      | some p, none => some p
      | none, _ => none

/-- One multi-select option: an object with an optional `value`. -/
structure MSOption where
  value : Option String
deriving DecidableEq

/-- Runtime shape of a multi-select field value: anything that is not an
array, or an array whose elements may each be null or an option object. -/
inductive MSInput where
  | notArray
  | arr (options : List (Option MSOption))
deriving DecidableEq

/-- The values surviving `ms.map(o => o?.value).filter(Boolean)`. -/
def msValues (l : List (Option MSOption)) : List String :=
  l.filterMap fun o =>
    match o.bind MSOption.value with
    | some v => if v = "" then none else some v
    | none => none

/-- Embeds `multiSelectToArray`: null unless the input is an array; the
filtered value list when non-empty, else null. -/
def multiSelectToArray : MSInput → Option (List String)
  | .notArray => none
  | .arr l => if msValues l = [] then none else some (msValues l)

/-- Zero-pad a day/month number to two characters
(`String(n).padStart(2, "0")`). -/
def pad2 (n : Int) : String :=
  if 0 ≤ n ∧ n < 10 then "0" ++ toString n else toString n

/-- Re-render an epoch timestamp as `YYYY-MM-DD` in UTC, as the
`getUTCFullYear`/`getUTCMonth`/`getUTCDate` path of `toBQDate` does. -/
def renderUTCDate (ms : Int) : String :=
  let c := civilFromDays (Int.fdiv ms 86400000)
  toString c.1 ++ "-" ++ pad2 c.2.1 ++ "-" ++ pad2 c.2.2

/-- The literal pattern `^\d{4}-\d{2}-\d{2}$`. -/
def matchesYMD (s : String) : Bool :=
  match (parseNDigits 4 s.data).bind (fun p =>
        (expectChar '-' p.2).bind fun r1 =>
        (parseNDigits 2 r1).bind fun q =>
        (expectChar '-' q.2).bind fun r2 =>
        (parseNDigits 2 r2).map Prod.snd) with
  | some [] => true
  | _ => false

/-- Embeds `toBQDate`: null on a falsy input; a parseable date re-rendered
as `YYYY-MM-DD` in UTC; an unparseable input passed through when it
literally matches `YYYY-MM-DD`; null otherwise. -/
def toBQDate (dateStr : Option String) : Option String :=
  match dateStr with
  | none => none
  | some ds =>
      if ds = "" then none
      else
        match jsDateParse ds with
        | some ms => some (renderUTCDate ms)
        | none => if matchesYMD ds then some ds else none

/-- Runtime shape of an opaque SLA field value: absent (or null), or a
present value together with the outcome of `JSON.stringify` on it
(`none` models a serialization failure, caught by the `try`/`catch`).
`JSON.stringify` itself is opaque to this system, so it is modelled by
the serialization outcome carried on the input. -/
inductive OpaqueInput where
  | missing
  | val (serialization : Option String)
deriving DecidableEq

/-- Embeds `toRawJson`: null for absent input, the serialized JSON string
when serialization succeeds, null when it fails. -/
def toRawJson : OpaqueInput → Option String
  | .missing => none
  | .val s => s

/- ------------------------------------------------------------------ -/
/- Raw issues and normalized rows.                                     -/
/- ------------------------------------------------------------------ -/

/-- A wrapped named enum such as `issuetype`, `status`, `priority`,
`resolution`: an object with an optional `name`. -/
structure NamedRef where
  name : Option String
deriving DecidableEq

/-- The selected fields of one raw Jira issue (`JiraIssueFields`), with
the runtime shape unions for the custom fields. -/
structure JiraIssueFields where
  summary : Option String := none
  description : Option String := none
  issuetype : Option NamedRef := none
  status : Option NamedRef := none
  priority : Option NamedRef := none
  resolution : Option NamedRef := none
  created : Option String := none
  updated : Option String := none
  resolutiondate : Option String := none
  assignee : Option JiraUser := none
  reporter : Option JiraUser := none
  customfield_10061 : CascInput := .missing
  customfield_10065 : Option String := none
  customfield_10090 : MSInput := .notArray
  customfield_10083 : MSInput := .notArray
  customfield_10015 : Option String := none
  customfield_10055 : OpaqueInput := .missing
  customfield_10056 : OpaqueInput := .missing
deriving DecidableEq

/-- One raw issue as delivered by the search endpoint (`JiraIssue`). -/
structure JiraIssue where
  key : Option String := none
  fields : Option JiraIssueFields := none
deriving DecidableEq

/-- One normalized warehouse row (`BigQueryRow`).  `sla_breached` and
`last_sync` are typed here as they exist on the warehouse tables;
ingestion always sets both to `none`, and only the merge writes
`last_sync` (modelled as an abstract `Nat` timestamp). -/
structure BigQueryRow where
  key : Option String
  summary : Option String
  description : Option String
  issue_type : Option String
  status : Option String
  priority : Option String
  resolution : Option String
  created : Option String
  updated : Option String
  resolved : Option String
  assignee : Option String
  reporter : Option String
  operational_categorization : Option String
  linked_intercom_conversation_ids : Option String
  team : Option (List String)
  filiale : Option (List String)
  start_date : Option String
  ttr_raw_json : Option String
  tffr_raw_json : Option String
  sla_breached : Option Bool
  last_sync : Option Nat
deriving DecidableEq

/-- The per-issue row construction in the body of `fetchIssuesSince`
(`const f = issue.fields ?? {}` followed by the `row` literal). -/
def normalize (issue : JiraIssue) : BigQueryRow :=
  let f := issue.fields.getD {}
  { key := issue.key
    summary := f.summary
    description := f.description
    issue_type := f.issuetype.bind NamedRef.name
    status := f.status.bind NamedRef.name
    priority := f.priority.bind NamedRef.name
    resolution := f.resolution.bind NamedRef.name
    created := f.created
    updated := f.updated
    resolved := f.resolutiondate
    assignee := asDisplay f.assignee
    reporter := asDisplay f.reporter
    operational_categorization := cascadingToString f.customfield_10061
    linked_intercom_conversation_ids := f.customfield_10065
    team := multiSelectToArray f.customfield_10090
    filiale := multiSelectToArray f.customfield_10083
    start_date := toBQDate f.customfield_10015
    ttr_raw_json := toRawJson f.customfield_10055
    tffr_raw_json := toRawJson f.customfield_10056
    sla_breached := none
    last_sync := none }

/- ------------------------------------------------------------------ -/
/- Pagination loop of fetchIssuesSince.                                -/
/- ------------------------------------------------------------------ -/

/-- The pagination metadata and issue list of one search response
(`JiraSearchResponse`); every field may be absent. -/
structure SearchResponse where
  issues : Option (List JiraIssue) := none
  startAt : Option Nat := none
  maxResults : Option Nat := none
  total : Option Nat := none
deriving DecidableEq

/-- Outcome of one transport request: a parsed response, or a non-success
response with its status code and body text. -/
inductive FetchResult where
  | ok (data : SearchResponse)
  | err (status : Nat) (body : String)
deriving DecidableEq

/-- One issued page request, as encoded in the request URL:
`maxResults=200&startAt=...`. -/
structure JiraRequest where
  startAt : Nat
  maxResults : Nat
deriving DecidableEq

/-- The rows one successful page contributes: each issue of
`data.issues ?? []` is normalized and kept only when its `key` is truthy
(`if (row.key) rows.push(row)`). -/
def pageRows (data : SearchResponse) : List BigQueryRow :=
  (data.issues.getD []).filterMap fun issue =>
    let row := normalize issue
    match row.key with
    | some k => if k = "" then none else some row
    | none => none

/-- The `while (true)` pagination loop, with the transport abstracted as
a function of the requested offset and an explicit fuel bound (`none`
when the fuel runs out before the loop exits).  Returns the trace of
issued requests together with the loop's outcome: the accumulated rows,
or the thrown status/body error. -/
def fetchGo (tr : Nat → FetchResult) :
    Nat → Nat → List BigQueryRow →
    Option (List JiraRequest × Except (Nat × String) (List BigQueryRow))
  | 0, _, _ => none
  | fuel + 1, startAt, acc =>
      match tr startAt with
      | .err status body =>
          some ([{ startAt := startAt, maxResults := 200 }], .error (status, body))
      | .ok data =>
          let acc2 := acc ++ pageRows data
          let s := data.startAt.getD 0
          let m := data.maxResults.getD 0
          let t := data.total.getD 0
          if t ≤ s + m then
            some ([{ startAt := startAt, maxResults := 200 }], .ok acc2)
          else
            match fetchGo tr fuel (startAt + m) acc2 with
            | none => none
            | some (trace, out) =>
                some ({ startAt := startAt, maxResults := 200 } :: trace, out)

/-- `fetchIssuesSince`, from the first request at offset 0 with an empty
accumulator. -/
def fetchIssuesSince (tr : Nat → FetchResult) (fuel : Nat) :
    Option (List JiraRequest × Except (Nat × String) (List BigQueryRow)) :=
  fetchGo tr fuel 0 []

/- ------------------------------------------------------------------ -/
/- Warehouse: staging load and merge reconciliation.                   -/
/- ------------------------------------------------------------------ -/

/-- The warehouse state the job manipulates: the target table
`jsm_tickets` and the staging table `jsm_tickets_staging`, both holding
`BigQueryRow`s. -/
structure Warehouse where
  target : List BigQueryRow
  staging : List BigQueryRow
deriving DecidableEq

/-- SQL equality on the `key` columns of the merge's `ON` clause: a SQL
`NULL` compares unequal to everything, including `NULL`. -/
def sqlKeyEq (a b : Option String) : Bool :=
  match a, b with
  | some x, some y => x = y
  | _, _ => false

/-- The `WHEN MATCHED THEN UPDATE SET` assignment list of `runMerge`:
every normalized column of the target row `t` is overwritten with the
staging row `s`'s value (the key itself is not in the list), and
`last_sync` is set to `CURRENT_TIMESTAMP()`, the merge-time `now`. -/
def mergeUpdate (s : BigQueryRow) (now : Nat) (t : BigQueryRow) : BigQueryRow :=
  { key := t.key
    summary := s.summary
    description := s.description
    issue_type := s.issue_type
    status := s.status
    priority := s.priority
    resolution := s.resolution
    created := s.created
    updated := s.updated
    resolved := s.resolved
    assignee := s.assignee
    reporter := s.reporter
    operational_categorization := s.operational_categorization
    linked_intercom_conversation_ids := s.linked_intercom_conversation_ids
    team := s.team
    filiale := s.filiale
    start_date := s.start_date
    ttr_raw_json := s.ttr_raw_json
    tffr_raw_json := s.tffr_raw_json
    sla_breached := s.sla_breached
    last_sync := some now }

/-- Embeds `runMerge`'s query script, executed atomically at merge time
`now`: matched target rows are updated from their matching staging row,
unmatched staging rows are inserted verbatim (`INSERT ROW`), and the
final `DELETE FROM ... WHERE TRUE` unconditionally empties staging. -/
def runMerge (now : Nat) (w : Warehouse) : Warehouse :=
  { target :=
      (w.target.map fun t =>
        match w.staging.find? (fun s => sqlKeyEq t.key s.key) with
        | some s => mergeUpdate s now t
        | none => t) ++
      w.staging.filter fun s => !(w.target.any fun t => sqlKeyEq t.key s.key)
    staging := [] }

/-- Embeds `insertToStaging`: an empty batch returns 0 without touching
the warehouse; otherwise one bulk append.  The `Bool` reports whether a
warehouse call (`bq...insert`) was issued. -/
def insertToStaging (rows : List BigQueryRow) (w : Warehouse) :
    Nat × Warehouse × Bool :=
  if rows.isEmpty then (0, w, false)
  else (rows.length, { w with staging := w.staging ++ rows }, true)

/-- Result of the orchestrator's load-and-reconcile tail. -/
structure PipelineResult where
  warehouse : Warehouse
  inserted : Nat
  insertCalled : Bool
  mergeRan : Bool
deriving DecidableEq

/-- The tail of `main` after the fetch: load the batch to staging, then
merge exactly when `inserted > 0`. -/
def runPipeline (now : Nat) (rows : List BigQueryRow) (w : Warehouse) :
    PipelineResult :=
  let r := insertToStaging rows w
  if r.1 > 0 then
    { warehouse := runMerge now r.2.1, inserted := r.1
      insertCalled := r.2.2, mergeRan := true }
  else
    { warehouse := r.2.1, inserted := r.1
      insertCalled := r.2.2, mergeRan := false }

/- ------------------------------------------------------------------ -/
/- Concrete fixtures for the testable scenarios.                       -/
/- ------------------------------------------------------------------ -/

/-- A search response declaring offset `s`, page size `m`, total `t`, and
carrying no issues. -/
def examplePage (s m t : Nat) : SearchResponse :=
  { issues := some [], startAt := some s, maxResults := some m, total := some t }

/-- The three-page source of the pagination scenario: total 450, pages
echoing offsets 0, 200, 400 with declared page sizes 200, 200, 50. -/
def exampleTr : Nat → FetchResult := fun off =>
  if off = 0 then .ok (examplePage 0 200 450)
  else if off = 200 then .ok (examplePage 200 200 450)
  else if off = 400 then .ok (examplePage 400 50 450)
  else .err 404 "unexpected offset"

/-- A source whose single page already covers its total. -/
def stopTr : Nat → FetchResult := fun _ => .ok (examplePage 0 200 100)

/-- A raw issue carrying only a key. -/
def issueOne : JiraIssue := { key := some "SRE-1", fields := none }

/-- A source that serves one successful page with one issue and then
fails every further request with status 500 and body "boom". -/
def failTr : Nat → FetchResult := fun off =>
  if off = 0 then
    .ok { issues := some [issueOne], startAt := some 0,
          maxResults := some 200, total := some 450 }
  else .err 500 "boom"

/-- A single-issue page response used to exercise the key filter. -/
def dataOne : SearchResponse :=
  { issues := some [issueOne], startAt := some 0,
    maxResults := some 200, total := some 1 }

/- ------------------------------------------------------------------ -/
/- Helper lemmas.                                                      -/
/- ------------------------------------------------------------------ -/

/-- Loosening the fractional-digit bound of the regex tail preserves a
match. -/
theorem fracThenZ_mono (rest : List Char) (h : fracThenZ (some 3) rest = true) :
    fracThenZ none rest = true := by
  cases rest with
  | nil => simp [fracThenZ] at h
  | cons c cs =>
      by_cases h1 : c = 'Z'
      · subst h1; simpa [fracThenZ] using h
      · by_cases h2 : c = '.'
        · subst h2
          simp only [fracThenZ, if_neg h1, eq_self_iff_true, if_true,
            Bool.and_eq_true, decide_eq_true_eq, Bool.and_true] at h ⊢
          exact ⟨h.1.1, h.2⟩
        · simp [fracThenZ, h1, h2] at h

/-- Every row a successful page contributes has a truthy key. -/
theorem pageRows_key_truthy (data : SearchResponse) (row : BigQueryRow)
    (hrow : row ∈ pageRows data) : ∃ k, row.key = some k ∧ k ≠ "" := by
  simp only [pageRows, List.mem_filterMap] at hrow
  obtain ⟨issue, _, hmap⟩ := hrow
  cases hk : (normalize issue).key with
  | none => rw [hk] at hmap; simp at hmap
  | some k =>
      rw [hk] at hmap
      by_cases hke : k = ""
      · simp [hke] at hmap
      · simp only [if_neg hke, Option.some.injEq] at hmap
        exact ⟨k, by rw [← hmap, hk], hke⟩

/-- Key-truthiness is an invariant of the pagination loop. -/
theorem fetchGo_keys (tr : Nat → FetchResult) :
    ∀ fuel startAt acc trace rows,
      fetchGo tr fuel startAt acc = some (trace, Except.ok rows) →
      (∀ r ∈ acc, ∃ k, r.key = some k ∧ k ≠ "") →
      ∀ r ∈ rows, ∃ k, r.key = some k ∧ k ≠ "" := by
  intro fuel
  induction fuel with
  | zero => intro startAt acc trace rows h; simp [fetchGo] at h
  | succ n ih =>
      intro startAt acc trace rows h hacc
      rw [fetchGo] at h
      cases htr : tr startAt with
      | err status body => rw [htr] at h; simp at h
      | ok data =>
          rw [htr] at h
          simp only at h
          have haccall : ∀ r ∈ acc ++ pageRows data, ∃ k, r.key = some k ∧ k ≠ "" := by
            intro r hr
            rcases List.mem_append.mp hr with hr | hr
            · exact hacc r hr
            · exact pageRows_key_truthy data r hr
          by_cases hstop : data.total.getD 0 ≤ data.startAt.getD 0 + data.maxResults.getD 0
          · rw [if_pos hstop] at h
            simp only [Option.some.injEq, Prod.mk.injEq] at h
            obtain ⟨-, hout⟩ := h
            cases hout
            exact haccall
          · rw [if_neg hstop] at h
            cases hrec : fetchGo tr n (startAt + data.maxResults.getD 0) (acc ++ pageRows data) with
            | none => rw [hrec] at h; simp at h
            | some p =>
                rw [hrec] at h
                obtain ⟨trace2, out2⟩ := p
                simp only [Option.some.injEq, Prod.mk.injEq] at h
                obtain ⟨-, hout⟩ := h
                cases hout
                exact ih _ _ _ _ hrec haccall

/-- An error outcome of the loop originates from a transport response
with exactly that status and body. -/
theorem fetchGo_error_src (tr : Nat → FetchResult) :
    ∀ fuel startAt acc trace status body,
      fetchGo tr fuel startAt acc = some (trace, Except.error (status, body)) →
      ∃ off, tr off = FetchResult.err status body := by
  intro fuel
  induction fuel with
  | zero => intro startAt acc trace status body h; simp [fetchGo] at h
  | succ n ih =>
      intro startAt acc trace status body h
      rw [fetchGo] at h
      cases htr : tr startAt with
      | err st bd =>
          rw [htr] at h
          simp only [Option.some.injEq, Prod.mk.injEq] at h
          obtain ⟨-, hout⟩ := h
          injection hout with hpair
          exact ⟨startAt, by rw [htr, (Prod.mk.injEq _ _ _ _).mp hpair.symm |>.1,
            ((Prod.mk.injEq _ _ _ _).mp hpair.symm).2]⟩
      | ok data =>
          rw [htr] at h
          simp only at h
          by_cases hstop : data.total.getD 0 ≤ data.startAt.getD 0 + data.maxResults.getD 0
          · rw [if_pos hstop] at h
            simp at h
          · rw [if_neg hstop] at h
            cases hrec : fetchGo tr n (startAt + data.maxResults.getD 0) (acc ++ pageRows data) with
            | none => rw [hrec] at h; simp at h
            | some p =>
                rw [hrec] at h
                obtain ⟨trace2, out2⟩ := p
                simp only [Option.some.injEq, Prod.mk.injEq] at h
                obtain ⟨-, hout⟩ := h
                cases hout
                exact ih _ _ _ _ _ hrec

/-- Every request the loop issues carries page size 200. -/
theorem fetchGo_trace_fixed (tr : Nat → FetchResult) :
    ∀ fuel startAt acc trace out,
      fetchGo tr fuel startAt acc = some (trace, out) →
      ∀ r ∈ trace, r.maxResults = 200 := by
  intro fuel
  induction fuel with
  | zero => intro startAt acc trace out h; simp [fetchGo] at h
  | succ n ih =>
      intro startAt acc trace out h
      rw [fetchGo] at h
      cases htr : tr startAt with
      | err st bd =>
          rw [htr] at h
          simp only [Option.some.injEq, Prod.mk.injEq] at h
          obtain ⟨htrace, -⟩ := h
          intro r hr
          rw [← htrace] at hr
          simp only [List.mem_singleton] at hr
          rw [hr]
      | ok data =>
          rw [htr] at h
          simp only at h
          by_cases hstop : data.total.getD 0 ≤ data.startAt.getD 0 + data.maxResults.getD 0
          · rw [if_pos hstop] at h
            simp only [Option.some.injEq, Prod.mk.injEq] at h
            obtain ⟨htrace, -⟩ := h
            intro r hr
            rw [← htrace] at hr
            simp only [List.mem_singleton] at hr
            rw [hr]
          · rw [if_neg hstop] at h
            cases hrec : fetchGo tr n (startAt + data.maxResults.getD 0) (acc ++ pageRows data) with
            | none => rw [hrec] at h; simp at h
            | some p =>
                rw [hrec] at h
                obtain ⟨trace2, out2⟩ := p
                simp only [Option.some.injEq, Prod.mk.injEq] at h
                obtain ⟨htrace, -⟩ := h
                intro r hr
                rw [← htrace] at hr
                rcases List.mem_cons.mp hr with hr | hr
                · rw [hr]
                · exact ih _ _ _ _ hrec r hr

/- ------------------------------------------------------------------ -/
/- Claim theorems.                                                     -/
/- ------------------------------------------------------------------ -/

/-- C1: Reconcile is idempotent: a successful `runMerge` leaves staging
empty, and running `runMerge` again immediately, with no intervening
load, leaves the warehouse (target rows and columns, and the empty
staging table) unchanged. -/
theorem C1_runMerge_idempotent (now1 now2 : Nat) (w : Warehouse) :
    (runMerge now1 w).staging = []
    ∧ runMerge now2 (runMerge now1 w) = runMerge now1 w
    ∧ (runMerge now2 (runMerge now1 w)).staging = [] := by
  refine ⟨rfl, ?_, rfl⟩
  simp [runMerge]

/-- C2: Pagination protocol of `fetchIssuesSince`: every issued request
carries page size 200; after a response declaring offset `s`, page size
`m` and total `t`, the loop stops exactly when `s + m ≥ t` and otherwise
re-enters at the previous request's offset plus `m`; on the 450-total
three-page source, exactly the offsets 0, 200, 400 are requested and the
loop stops after the third page. -/
theorem C2_pagination_protocol :
    (∀ (tr : Nat → FetchResult) (fuel startAt : Nat) acc data,
       tr startAt = FetchResult.ok data →
       ((data.total.getD 0 ≤ data.startAt.getD 0 + data.maxResults.getD 0 →
           fetchGo tr (fuel + 1) startAt acc =
             some ([{ startAt := startAt, maxResults := 200 }],
                   Except.ok (acc ++ pageRows data)))
        ∧ (data.startAt.getD 0 + data.maxResults.getD 0 < data.total.getD 0 →
           fetchGo tr (fuel + 1) startAt acc =
             (fetchGo tr fuel (startAt + data.maxResults.getD 0)
                (acc ++ pageRows data)).map
               (fun p => (({ startAt := startAt, maxResults := 200 } :
                   JiraRequest) :: p.1, p.2)))))
  ∧ (∀ (tr : Nat → FetchResult) fuel startAt acc trace out,
       fetchGo tr fuel startAt acc = some (trace, out) →
       ∀ r ∈ trace, r.maxResults = 200)
  ∧ fetchIssuesSince exampleTr 10 =
      some ([⟨0, 200⟩, ⟨200, 200⟩, ⟨400, 200⟩], Except.ok []) := by
  refine ⟨?_, fun tr => fetchGo_trace_fixed tr, by rfl⟩
  intro tr fuel startAt acc data h
  constructor
  · intro hstop
    rw [fetchGo, h]
    simp only
    rw [if_pos hstop]
  · intro hmore
    rw [fetchGo, h]
    simp only
    rw [if_neg (by omega :
      ¬ data.total.getD 0 ≤ data.startAt.getD 0 + data.maxResults.getD 0)]
    cases hrec : fetchGo tr fuel (startAt + data.maxResults.getD 0)
        (acc ++ pageRows data) with
    | none => simp
    | some p => obtain ⟨trace2, out2⟩ := p; simp

/-- C2 witness: the step characterization applied to a source whose
first response already covers its total. -/
theorem C2_pagination_protocol_witness :
    fetchGo stopTr 3 0 [] =
      some ([{ startAt := 0, maxResults := 200 }],
            Except.ok ([] ++ pageRows (examplePage 0 200 100))) :=
  (C2_pagination_protocol.1 stopTr 2 0 [] (examplePage 0 200 100) rfl).1 (by decide)

/-- C3: rows whose key is absent (or empty) after normalization never
reach the batch: no row of a page's contribution, and no row of a
successful fetch result, has a null key. -/
theorem C3_no_null_keys :
    (∀ data row, row ∈ pageRows data → row.key ≠ none)
  ∧ (∀ (tr : Nat → FetchResult) fuel trace rows,
       fetchIssuesSince tr fuel = some (trace, Except.ok rows) →
       ∀ row ∈ rows, row.key ≠ none) := by
  constructor
  · intro data row hrow
    obtain ⟨k, hk, -⟩ := pageRows_key_truthy data row hrow
    simp [hk]
  · intro tr fuel trace rows h row hrow
    obtain ⟨k, hk, -⟩ :=
      fetchGo_keys tr fuel 0 [] trace rows h (by intro r hr; simp at hr) row hrow
    simp [hk]

/-- C3 witness: the single-issue page keeps its keyed row, whose key is
not null. -/
theorem C3_no_null_keys_witness :
    (normalize issueOne).key ≠ none :=
  C3_no_null_keys.1 dataOne (normalize issueOne) (by decide)

/-- C4: `toBQDate` returns null on an absent input, re-renders a
parseable date as `YYYY-MM-DD` in UTC, passes an unparseable literal
`YYYY-MM-DD` string through, and returns null otherwise; with the four
concrete evaluations of the spec. -/
theorem C4_toBQDate_spec :
    toBQDate none = none
  ∧ (∀ s ms, s ≠ "" → jsDateParse s = some ms →
       toBQDate (some s) = some (renderUTCDate ms))
  ∧ (∀ s, s ≠ "" → jsDateParse s = none → matchesYMD s = true →
       toBQDate (some s) = some s)
  ∧ (∀ s, s ≠ "" → jsDateParse s = none → matchesYMD s = false →
       toBQDate (some s) = none)
  ∧ toBQDate (some "2025-03-05T10:00:00Z") = some "2025-03-05"
  ∧ toBQDate (some "2025-03-05") = some "2025-03-05"
  ∧ toBQDate (some "not-a-date") = none := by
  refine ⟨rfl, ?_, ?_, ?_, by decide, by decide, by decide⟩
  · intro s ms hs hp; simp [toBQDate, hs, hp]
  · intro s hs hp hm; simp [toBQDate, hs, hp, hm]
  · intro s hs hp hm; simp [toBQDate, hs, hp, hm]

/-- C4 witness: a calendar-invalid string matching the literal pattern
passes through unchanged. -/
theorem C4_toBQDate_spec_witness :
    toBQDate (some "9999-99-99") = some "9999-99-99" :=
  C4_toBQDate_spec.2.2.1 "9999-99-99" (by decide) (by decide) (by decide)

/-- C5 counterexample: the trigger's validator and the puller's
`isIso8601Z` disagree on a timestamp with four fractional digits, so the
two endpoints do not validate `since` against the same format for every
puller validator implementation. -/
theorem C5_validator_agreement_counterexample :
    Puller.isIso8601Z "2025-01-01T00:00:00.1234Z" = true
    ∧ TriggerRefresh.validateISO8601 "2025-01-01T00:00:00.1234Z" = false :=
  ⟨by decide, by decide⟩

/-- C5 (amended): the trigger's validator agrees with the puller's
`validateISO8601` on every string, and every string the trigger accepts
is also accepted by the puller's `isIso8601Z`; the converse inclusion
fails. -/
theorem C5_validators_amended :
    (∀ s, TriggerRefresh.validateISO8601 s = Puller.validateISO8601 s)
  ∧ (∀ s, TriggerRefresh.validateISO8601 s = true →
       Puller.isIso8601Z s = true) := by
  constructor
  · intro s; rfl
  · intro s h
    unfold TriggerRefresh.validateISO8601 iso8601RegexTest at h
    unfold Puller.isIso8601Z
    cases hd : dateTimePrefix s.data with
    | none => simp [hd] at h
    | some rest =>
        rw [hd] at h
        simp only at h ⊢
        cases hf : fracThenZ (some 3) rest with
        | false => simp [hf] at h
        | true => exact fracThenZ_mono rest hf

/-- C5 amended witness: both inclusions at the spec's accepted
timestamp. -/
theorem C5_validators_amended_witness :
    TriggerRefresh.validateISO8601 "2025-01-01T00:00:00.123Z" =
      Puller.validateISO8601 "2025-01-01T00:00:00.123Z"
    ∧ Puller.isIso8601Z "2025-01-01T00:00:00.123Z" = true :=
  ⟨C5_validators_amended.1 _, C5_validators_amended.2 _ (by decide)⟩

/-- C6: multi-select normalization never yields an empty list: non-array
input gives null, an array whose filtered values are empty gives null,
and otherwise the ordered filtered value list is returned. -/
theorem C6_multiSelect_never_empty :
    (∀ input, multiSelectToArray input ≠ some [])
  ∧ multiSelectToArray MSInput.notArray = none
  ∧ (∀ l, msValues l = [] → multiSelectToArray (MSInput.arr l) = none)
  ∧ (∀ l, msValues l ≠ [] →
       multiSelectToArray (MSInput.arr l) = some (msValues l)) := by
  refine ⟨?_, rfl, ?_, ?_⟩
  · intro input
    cases input with
    | notArray => simp [multiSelectToArray]
    | arr l =>
        by_cases h : msValues l = []
        · simp [multiSelectToArray, h]
        · simp [multiSelectToArray, h]
  · intro l h; simp [multiSelectToArray, h]
  · intro l h; simp [multiSelectToArray, h]

/-- C6 witness: a one-option array keeps its value and is not the empty
list. -/
theorem C6_multiSelect_never_empty_witness :
    multiSelectToArray (MSInput.arr [some { value := some "core" }]) ≠ some []
    ∧ multiSelectToArray (MSInput.arr [some { value := some "core" }]) =
        some (msValues [some { value := some "core" }]) :=
  ⟨C6_multiSelect_never_empty.1 _,
   C6_multiSelect_never_empty.2.2.2 _ (by decide)⟩

/-- C7: loading an empty batch is a no-op returning 0 with no warehouse
call, and the orchestrator merges exactly when the load count is
positive; an empty batch therefore never triggers the merge. -/
theorem C7_empty_load_skips_merge :
    (∀ w, insertToStaging [] w = (0, w, false))
  ∧ (∀ (now : Nat) rows w, (runPipeline now rows w).mergeRan = true ↔
       0 < (runPipeline now rows w).inserted)
  ∧ (∀ (now : Nat) w, runPipeline now [] w =
       { warehouse := w, inserted := 0, insertCalled := false,
         mergeRan := false }) := by
  refine ⟨fun w => rfl, ?_, fun now w => rfl⟩
  intro now rows w
  cases rows with
  | nil => simp [runPipeline, insertToStaging]
  | cons a l => simp [runPipeline, insertToStaging]

/-- C8: a non-success transport response makes the fetch fail with that
response's status and body; the accumulated rows do not influence and do
not survive to the outcome, and on the concrete failing source the
successful first page's rows are discarded. -/
theorem C8_transport_error_aborts :
    (∀ (tr : Nat → FetchResult) (fuel startAt : Nat) acc status body,
       tr startAt = FetchResult.err status body →
       fetchGo tr (fuel + 1) startAt acc =
         some ([{ startAt := startAt, maxResults := 200 }],
               Except.error (status, body)))
  ∧ (∀ (tr : Nat → FetchResult) fuel startAt acc trace status body,
       fetchGo tr fuel startAt acc = some (trace, Except.error (status, body)) →
       ∃ off, tr off = FetchResult.err status body)
  ∧ fetchIssuesSince failTr 10 =
      some ([⟨0, 200⟩, ⟨200, 200⟩], Except.error (500, "boom")) := by
  refine ⟨?_, fun tr => fetchGo_error_src tr, by rfl⟩
  intro tr fuel startAt acc status body h
  rw [fetchGo, h]

/-- C8 witness: the error step applied after a non-empty accumulated
page. -/
theorem C8_transport_error_aborts_witness :
    fetchGo failTr 1 200
        (pageRows { issues := some [issueOne], startAt := some 0,
                    maxResults := some 200, total := some 450 }) =
      some ([{ startAt := 200, maxResults := 200 }],
            Except.error (500, "boom")) :=
  C8_transport_error_aborts.1 failTr 0 200 _ 500 "boom" rfl

/-- C9: normalization is total and degrades each absent or malformed
field to null: an issue without fields yields the all-null row (except
the key), and non-object cascading selects, non-array multi-selects,
unserializable opaque objects and non-date strings each yield null in
their column. -/
theorem C9_normalize_total :
    (∀ k, normalize { key := k, fields := none } =
       { key := k, summary := none, description := none, issue_type := none,
         status := none, priority := none, resolution := none, created := none,
         updated := none, resolved := none, assignee := none, reporter := none,
         operational_categorization := none,
         linked_intercom_conversation_ids := none, team := none,
         filiale := none, start_date := none, ttr_raw_json := none,
         tffr_raw_json := none, sla_breached := none, last_sync := none })
  ∧ (∀ issue f, issue.fields = some f →
       f.customfield_10061 = CascInput.primitive →
       (normalize issue).operational_categorization = none)
  ∧ (∀ issue f, issue.fields = some f → f.customfield_10090 = MSInput.notArray →
       (normalize issue).team = none)
  ∧ (∀ issue f, issue.fields = some f →
       f.customfield_10055 = OpaqueInput.val none →
       (normalize issue).ttr_raw_json = none)
  ∧ (∀ issue f s, issue.fields = some f → f.customfield_10015 = some s →
       jsDateParse s = none → matchesYMD s = false →
       (normalize issue).start_date = none) := by
  refine ⟨fun k => rfl, ?_, ?_, ?_, ?_⟩
  · intro issue f hf hc; simp [normalize, hf, hc, cascadingToString]
  · intro issue f hf hc; simp [normalize, hf, hc, multiSelectToArray]
  · intro issue f hf hc; simp [normalize, hf, hc, toRawJson]
  · intro issue f s hf hc hp hm
    by_cases hs : s = ""
    · simp [normalize, hf, hc, toBQDate, hs]
    · simp [normalize, hf, hc, toBQDate, hs, hp, hm]

/-- A raw issue whose custom fields are all malformed. -/
def issueBad : JiraIssue :=
  { key := some "SRE-9"
    fields := some { customfield_10061 := .primitive,
                     customfield_10090 := .notArray,
                     customfield_10055 := .val none,
                     customfield_10015 := some "garbage" } }

/-- C9 witness: the malformed issue's columns all degrade to null. -/
theorem C9_normalize_total_witness :
    (normalize issueBad).operational_categorization = none
    ∧ (normalize issueBad).team = none
    ∧ (normalize issueBad).ttr_raw_json = none
    ∧ (normalize issueBad).start_date = none :=
  ⟨C9_normalize_total.2.1 issueBad _ rfl rfl,
   C9_normalize_total.2.2.1 issueBad _ rfl rfl,
   C9_normalize_total.2.2.2.1 issueBad _ rfl rfl,
   C9_normalize_total.2.2.2.2 issueBad _ "garbage" rfl rfl (by decide) (by decide)⟩

/-- C10: ingestion always leaves `sla_breached` null; the merge's update
overwrites the matched target row's `sla_breached` with the staging
value and stamps `last_sync` with the merge time, which is the only
column that depends on it; matched target rows in `runMerge` indeed
receive this update. -/
theorem C10_merge_overwrites_sla :
    (∀ issue, (normalize issue).sla_breached = none)
  ∧ (∀ s now t, (mergeUpdate s now t).sla_breached = s.sla_breached)
  ∧ (∀ s now t, (mergeUpdate s now t).last_sync = some now)
  ∧ (∀ s now1 now2 t,
       mergeUpdate s now1 t = { mergeUpdate s now2 t with last_sync := some now1 })
  ∧ (∀ now w t s, t ∈ w.target →
       w.staging.find? (fun s2 => sqlKeyEq t.key s2.key) = some s →
       mergeUpdate s now t ∈ (runMerge now w).target) := by
  refine ⟨fun issue => rfl, fun s now t => rfl, fun s now t => rfl,
    fun s now1 now2 t => rfl, ?_⟩
  intro now w t s ht hfind
  unfold runMerge
  apply List.mem_append_left
  refine List.mem_map.mpr ⟨t, ht, ?_⟩
  rw [hfind]

/-- A persisted target row carrying a previously populated breach flag. -/
def targetRowEx : BigQueryRow :=
  { normalize issueOne with sla_breached := some true, last_sync := some 7 }

/-- The warehouse just before a merge that re-syncs the same key. -/
def warehouseEx : Warehouse :=
  { target := [targetRowEx], staging := [normalize issueOne] }

/-- C10 witness: the breach flag previously set on the target row does
not survive the update merge. -/
theorem C10_merge_overwrites_sla_witness :
    (normalize issueOne).sla_breached = none
    ∧ mergeUpdate (normalize issueOne) 42 targetRowEx ∈
        (runMerge 42 warehouseEx).target
    ∧ (mergeUpdate (normalize issueOne) 42 targetRowEx).sla_breached = none := by
  refine ⟨C10_merge_overwrites_sla.1 issueOne,
    C10_merge_overwrites_sla.2.2.2.2 42 warehouseEx targetRowEx
      (normalize issueOne) (by decide) (by decide), ?_⟩
  rw [C10_merge_overwrites_sla.2.1]
  exact C10_merge_overwrites_sla.1 issueOne

end JSM
